import Mathlib

/-!
# Verification of the FDNY response-time aggregation core (process_data.py)

Shallow embedding of the data-processing core of the project:

* incidents, alarm boxes and per-box response statistics are typed records;
* pandas timestamps are embedded as integers (only their linear order matters);
* shapely multipolygons are embedded by their containment semantics, as a
  boolean predicate on points `(longitude, latitude)`;
* dataframes whose column structure matters (the fire-company table, the
  concatenated long-form table) are embedded generically as lists of rows,
  a row being an association list from column name to cell value;
* functions that mutate a dataframe argument in place are embedded in
  state-passing style: they return the post-call value of the mutable
  argument together with the python return value.
-/

namespace FDNY

/-- A geographic point, `(longitude, latitude)`, the argument order of
`shapely.geometry.Point(row.longitude, row.latitude)`. -/
abbrev Point := ℚ × ℚ

/-- A shapely `MultiPolygon`, embedded by its containment semantics
(`boundary.contains(point)`). -/
abbrev Geom := Point → Bool

/-- One row of the incident dispatch table.  `incident_datetime` is the
timestamp embedded as an integer; `incident_response_seconds_qy` is the
non-negative integer number of seconds of the response. -/
structure Incident where
  alarm_box_code : String
  incident_datetime : Int
  incident_response_seconds_qy : Nat
deriving DecidableEq

/-- One row of the alarm-box table. -/
structure AlarmBox where
  alarm_box_code : String
  alarm_box_location : String
  latitude : ℚ
  longitude : ℚ
deriving DecidableEq

/-- One row of the output of `get_response_time_per_alarm_box`. -/
structure BoxResponse where
  alarm_box_code : String
  alarm_box_location : String
  latitude : ℚ
  longitude : ℚ
  incident_count : Nat
  response_time_sum : Nat
deriving DecidableEq

/-- Embedding of `incidents.loc[incidents.incident_datetime >= start].loc[incidents.incident_datetime < end]`
(process_data.py line 35): the two successive `.loc` filters of the temporal
window.  `stop` is the python parameter `end`. -/
def incidents_in_range (incidents : List Incident) (start stop : Int) : List Incident :=
  (incidents.filter (fun i => start ≤ i.incident_datetime)).filter
    (fun i => i.incident_datetime < stop)

/-- The accumulation loop of `get_response_time_per_alarm_box`
(process_data.py lines 37-43): iterate over the windowed incidents, and for
each incident whose `alarm_box_code` is a label of the two series (i.e. is in
`codes`, the alarm-box code column) bump that code's count by one and add the
incident's response seconds to that code's sum.  The two series are embedded
as functions from code to accumulated value. -/
def runTally (codes : List String) (count total : String → Nat) :
    List Incident → (String → Nat) × (String → Nat)
  | [] => (count, total)
  | i :: rest =>
    if i.alarm_box_code ∈ codes then
      runTally codes
        (fun c => if c = i.alarm_box_code then count c + 1 else count c)
        (fun c => if c = i.alarm_box_code then total c + i.incident_response_seconds_qy else total c)
        rest
    else
      runTally codes count total rest

/-- Embedding of `get_response_time_per_alarm_box` (process_data.py lines 14-49): build the
zero-initialised count and sum series indexed by the alarm-box codes, window
the incidents to `[start, stop)`, run the accumulation loop, and assemble the
output dataframe with one row per alarm-box row.  The docstring precondition
`start < end` is not checked anywhere in the function body. -/
def get_response_time_per_alarm_box (incidents : List Incident) (alarm_boxes : List AlarmBox)
    (start stop : Int) : List BoxResponse :=
  let codes := alarm_boxes.map (fun b => b.alarm_box_code)
  let tallies := runTally codes (fun _ => 0) (fun _ => 0) (incidents_in_range incidents start stop)
  alarm_boxes.map (fun b =>
    { alarm_box_code := b.alarm_box_code
      alarm_box_location := b.alarm_box_location
      latitude := b.latitude
      longitude := b.longitude
      incident_count := tallies.1 b.alarm_box_code
      response_time_sum := tallies.2 b.alarm_box_code })

/-- Embedding of the segment selection
`alarm_box_response.loc[alarm_box_response['alarm_box_code'].isin(company_to_boxes[company_name])]`
(process_data.py lines 122-123): the rows of the per-box response table whose
code is in the company's box list. -/
def companySegment (alarm_box_response : List BoxResponse) (boxes : List String) :
    List BoxResponse :=
  alarm_box_response.filter (fun r => r.alarm_box_code ∈ boxes)

/-- Embedding of `company_response_segment.response_time_sum.sum()` (process_data.py line 126). -/
def companyResponseSum (alarm_box_response : List BoxResponse) (boxes : List String) : Nat :=
  ((companySegment alarm_box_response boxes).map (fun r => r.response_time_sum)).sum

/-- Embedding of `company_response_segment.incident_count.sum()` (process_data.py line 130). -/
def companyIncidentCount (alarm_box_response : List BoxResponse) (boxes : List String) : Nat :=
  ((companySegment alarm_box_response boxes).map (fun r => r.incident_count)).sum

/-- The per-company average of `calc_companies_response_time`
(process_data.py lines 125-128): if the segment's response-time sum is
positive, the sum of sums divided by the sum of counts, otherwise the
initialisation value `0.0`.  (The python guard is on the sum, not the count;
over the natural-number sums produced by `get_response_time_per_alarm_box`
a zero sum with a positive count yields `0.0` on both readings.) -/
def companyResponseTime (alarm_box_response : List BoxResponse) (boxes : List String) : ℚ :=
  if 0 < companyResponseSum alarm_box_response boxes then
    (companyResponseSum alarm_box_response boxes : ℚ) /
      (companyIncidentCount alarm_box_response boxes : ℚ)
  else 0

/-- One row of the fire-company table as the spatial partitioner sees it:
the company name together with the containment semantics of its boundary
(`convert_geojson_to_shapely(row.the_geom)`). -/
structure FireCompany where
  company_name : String
  the_geom : Geom

/-- Embedding of `_find_alarm_boxes_in_boundary` (process_data.py lines 169-182): the codes
of the pool entries whose point the boundary contains, in pool order. -/
def find_alarm_boxes_in_boundary (boxes : List (String × Point)) (boundary : Geom) :
    List String :=
  (boxes.filter (fun kv => boundary kv.2)).map Prod.fst

/-- The loop of `map_companies_to_alarm_boxes` (process_data.py lines 157-164):
for each company in order, collect the not-yet-assigned boxes inside its
boundary and pop them from the shared pool. -/
def mapCompaniesAux : List FireCompany → List (String × Point) → List (String × List String)
  | [], _ => []
  | fc :: rest, pool =>
    (fc.company_name, find_alarm_boxes_in_boundary pool fc.the_geom) ::
      mapCompaniesAux rest
        (pool.filter (fun kv => kv.1 ∉ find_alarm_boxes_in_boundary pool fc.the_geom))

/-- Embedding of the dict `alarm_box_locations` (process_data.py lines 154-155): the dict from alarm
box code to its `Point(longitude, latitude)`, in row order. -/
def alarm_box_locations (alarm_boxes : List AlarmBox) : List (String × Point) :=
  alarm_boxes.map (fun b => (b.alarm_box_code, ((b.longitude, b.latitude) : Point)))

/-- Embedding of `map_companies_to_alarm_boxes` (process_data.py lines 140-166). -/
def map_companies_to_alarm_boxes (fire_companies : List FireCompany)
    (alarm_boxes : List AlarmBox) : List (String × List String) :=
  mapCompaniesAux fire_companies (alarm_box_locations alarm_boxes)

/-- One row of the statistics part of the output of
`calc_companies_response_time`. -/
structure CompanyResponse where
  company_name : String
  response_times : ℚ
  incident_count : Nat
deriving DecidableEq

/-- Embedding of `calc_companies_response_time` (process_data.py lines 98-137), statistics
view: the loop writes one `(response_times, incident_count)` pair per key of
`company_to_boxes` (keys of a python dict, hence distinct, in insertion
order), and the final `.values` assignments attach those pairs positionally
to the rows of the `fire_companies` copy. -/
def calc_companies_response_time (fire_companies : List FireCompany)
    (alarm_box_response : List BoxResponse) (company_to_boxes : List (String × List String)) :
    List CompanyResponse :=
  (fire_companies.zip company_to_boxes).map (fun x =>
    { company_name := x.1.company_name
      response_times := companyResponseTime alarm_box_response x.2.2
      incident_count := companyIncidentCount alarm_box_response x.2.2 })

/-- A cell value of a generically embedded dataframe. -/
inductive Value where
  | str (s : String)
  | int (n : Int)
  | nat (n : Nat)
  | rat (q : ℚ)
  | geo (coordinates : List (List (List (ℚ × ℚ))))
deriving DecidableEq

/-- A dataframe row: an ordered association list from column name to value. -/
abbrev Row := List (String × Value)

/-- A generically embedded dataframe: a list of rows (the row labels are the
positions; the pipeline concatenates with `ignore_index=True`, so labels are
unique). -/
abbrev DFrame := List Row

/-- Reading the cell of column `col` of a row (`row[col]`). -/
def getCell (row : Row) (col : String) : Option Value :=
  (row.find? (fun cell => cell.1 = col)).map Prod.snd

/-- Embedding of `row[col] = v`: pandas column assignment replaces the cells of an existing
column in place and appends a new column at the end otherwise. -/
def setCell (row : Row) (col : String) (v : Value) : Row :=
  if row.any (fun cell => cell.1 = col) then
    row.map (fun cell => if cell.1 = col then (col, v) else cell)
  else
    row ++ [(col, v)]

/-- Embedding of `df[col] = vals` for a per-row array of values (`.values` assignment is
positional; pandas requires the lengths to agree). -/
def setColumn (df : DFrame) (col : String) (vals : List Value) : DFrame :=
  (df.zip vals).map (fun rv => setCell rv.1 col rv.2)

/-- Embedding of `df[col] = v` for a scalar `v`: broadcast to every row. -/
def setColumnConst (df : DFrame) (col : String) (v : Value) : DFrame :=
  df.map (fun row => setCell row col v)

/-- Embedding of `df.drop(columns=col)`. -/
def dropColumn (df : DFrame) (col : String) : DFrame :=
  df.map (fun row => row.filter (fun cell => cell.1 ≠ col))

/-- Embedding of `calc_companies_response_time` (process_data.py lines 98-137), dataframe
view, in state-passing style: the first component is the post-call value of
the mutable argument `fire_companies`, the second the python return value.
The body works on `firehouse_copy = fire_companies.copy()`, drops the unused
`the_geom` column from the copy, and attaches the two statistics columns
positionally (`.values` assignment, values in `company_to_boxes` key order). -/
def calc_companies_response_time_df (fire_companies : DFrame)
    (alarm_box_response : List BoxResponse) (company_to_boxes : List (String × List String)) :
    DFrame × DFrame :=
  (fire_companies,
    setColumn
      (setColumn (dropColumn fire_companies "the_geom") "response_times"
        (company_to_boxes.map (fun p => Value.rat (companyResponseTime alarm_box_response p.2))))
      "incident_count"
      (company_to_boxes.map (fun p => Value.nat (companyIncidentCount alarm_box_response p.2))))

/-- Embedding of `concat_company_responses` (process_data.py lines 199-216), in
state-passing style: the loop assigns the scalar `date` column to each
dataframe of the input dict in place, then the concatenated table of the
(mutated) dataframes in key-iteration order is returned.  The first component
is the post-call value of the input dict, the second the return value. -/
def concat_company_responses (companies_response_by_month : List (Int × DFrame)) :
    List (Int × DFrame) × DFrame :=
  let mutated := companies_response_by_month.map
    (fun p => (p.1, setColumnConst p.2 "date" (Value.int p.1)))
  (mutated, (mutated.map Prod.snd).flatten)

/-- Embedding of `companies_response.response_times < 1.0` on one row (process_data.py
line 74).  On the tables this filter receives, `response_times` is always a
present rational-valued column (the format of `calc_companies_response_time`). -/
def respBelowLower (row : Row) : Bool :=
  match getCell row "response_times" with
  | some (Value.rat q) => decide (q < 1)
  | _ => false

/-- Embedding of `companies_response.response_times > 2500.0` on one row (process_data.py
line 75). -/
def respAboveUpper (row : Row) : Bool :=
  match getCell row "response_times" with
  | some (Value.rat q) => decide (2500 < q)
  | _ => false

/-- Embedding of `remove_outliers_companies_response` (process_data.py lines 64-80): drop
the rows below the lower bound, then drop the rows above the upper bound
(both index sets are computed from row-local predicates, and the table has
unique row labels, so the two successive label drops are the two successive
filters). -/
def remove_outliers_companies_response (companies_response : DFrame) : DFrame :=
  (companies_response.filter (fun row => !respBelowLower row)).filter
    (fun row => !respAboveUpper row)

/-- The tail of `main` (main.py lines 45-57): concatenate the per-month
company-response dataframes into one long-form table, then apply the outlier
filter once to the concatenated table.  (The date-column reformatting of
main.py line 49 rewrites only the `date` cells and is independent of the
filtered column.) -/
def main_outlier_stage (company_responses : List (Int × DFrame)) : DFrame :=
  remove_outliers_companies_response (concat_company_responses company_responses).2

/-- Concrete long-form rows used in the claims about the outlier filter. -/
def rowWithResponse (q : ℚ) : Row :=
  [("company_name", Value.str "Engine 70"), ("response_times", Value.rat q),
   ("incident_count", Value.nat 4), ("date", Value.int 0)]

/-- The aggregation-weighting example table: box A with `(count, sum) = (2, 100)`
and box B with `(count, sum) = (1, 50)`. -/
def exampleBoxes : List BoxResponse :=
  [{ alarm_box_code := "A", alarm_box_location := "a", latitude := 0, longitude := 0,
     incident_count := 2, response_time_sum := 100 },
   { alarm_box_code := "B", alarm_box_location := "b", latitude := 0, longitude := 0,
     incident_count := 1, response_time_sum := 50 }]

/-- Statement of the temporal-windowing claim: the window keeps exactly the
incidents with `start ≤ t < stop` (start inclusive, `stop` — the python
`end` — exclusive), and a permutation of the input yields a permutation of
the output (the selected set does not depend on input ordering). -/
def WindowSpec (incidents incidents' : List Incident) (start stop : Int) (i : Incident) : Prop :=
  (i ∈ incidents_in_range incidents start stop ↔
    i ∈ incidents ∧ start ≤ i.incident_datetime ∧ i.incident_datetime < stop)
  ∧ (∀ j ∈ incidents, j.incident_datetime = start → start < stop →
      j ∈ incidents_in_range incidents start stop)
  ∧ (∀ j : Incident, j.incident_datetime = stop → j ∉ incidents_in_range incidents start stop)
  ∧ (incidents_in_range incidents start stop).Perm (incidents_in_range incidents' start stop)

/-- Statement of the per-asset accumulator claim: one output row per known
alarm box, counting exactly the windowed incidents carrying that box's code
(count `0`, sum `0` for a box with no incidents in the window), while an
incident `j` whose code is not in the alarm-box table changes nothing. -/
def AccumulatorSpec (incidents : List Incident) (alarm_boxes : List AlarmBox)
    (start stop : Int) (pre post : List Incident) (j : Incident) : Prop :=
  (get_response_time_per_alarm_box incidents alarm_boxes start stop =
    alarm_boxes.map (fun b =>
      { alarm_box_code := b.alarm_box_code
        alarm_box_location := b.alarm_box_location
        latitude := b.latitude
        longitude := b.longitude
        incident_count := (incidents_in_range incidents start stop).countP
          (fun i => decide (i.alarm_box_code = b.alarm_box_code))
        response_time_sum := (((incidents_in_range incidents start stop).filter
            (fun i => decide (i.alarm_box_code = b.alarm_box_code))).map
          (fun i => i.incident_response_seconds_qy)).sum }))
  ∧ (∀ b ∈ alarm_boxes,
      (∀ k ∈ incidents_in_range incidents start stop, k.alarm_box_code ≠ b.alarm_box_code) →
      ({ alarm_box_code := b.alarm_box_code
         alarm_box_location := b.alarm_box_location
         latitude := b.latitude
         longitude := b.longitude
         incident_count := 0
         response_time_sum := 0 } : BoxResponse) ∈
        get_response_time_per_alarm_box incidents alarm_boxes start stop)
  ∧ get_response_time_per_alarm_box (pre ++ j :: post) alarm_boxes start stop =
      get_response_time_per_alarm_box (pre ++ post) alarm_boxes start stop

/-- Statement of the aggregation-weighting claim: each company's
`response_times` is the incident-weighted average (total seconds over total
incidents of the company's boxes), the aggregator attaches exactly these
per-company values, and on the example table (`(2,100)` and `(1,50)`) the
result is `50`, not the `75` of an average of per-box averages. -/
def AggregationWeightingSpec (fire_companies : List FireCompany) (abr : List BoxResponse)
    (ctb : List (String × List String)) (boxes : List String) : Prop :=
  companyResponseTime abr boxes =
    (companyResponseSum abr boxes : ℚ) / (companyIncidentCount abr boxes : ℚ)
  ∧ calc_companies_response_time fire_companies abr ctb =
      (fire_companies.zip ctb).map (fun x =>
        { company_name := x.1.company_name
          response_times := companyResponseTime abr x.2.2
          incident_count := companyIncidentCount abr x.2.2 })
  ∧ companyResponseTime exampleBoxes ["A", "B"] = 50
  ∧ companyResponseTime exampleBoxes ["A", "B"] ≠ 75

/-- Statement of the amended inverted-bounds claim: with `stop ≤ start` the
window is empty and `get_response_time_per_alarm_box` proceeds normally,
returning the all-zero row for every alarm box. -/
def EmptyWindowSpec (incidents : List Incident) (alarm_boxes : List AlarmBox)
    (start stop : Int) : Prop :=
  incidents_in_range incidents start stop = []
  ∧ get_response_time_per_alarm_box incidents alarm_boxes start stop =
      alarm_boxes.map (fun b =>
        { alarm_box_code := b.alarm_box_code
          alarm_box_location := b.alarm_box_location
          latitude := b.latitude
          longitude := b.longitude
          incident_count := 0
          response_time_sum := 0 })

/-- Statement of the spatial-partition claim: the partition lists the company
names as its keys in input order; each alarm box code lands in at most one
company's list (distinct entries have disjoint lists); every listed code is a
code of the alarm-box table; a box contained in no company's boundary appears
in no list; and a company whose boundary contains no box still appears, with
the empty list. -/
def PartitionSpec (fire_companies : List FireCompany) (alarm_boxes : List AlarmBox) : Prop :=
  (map_companies_to_alarm_boxes fire_companies alarm_boxes).map Prod.fst =
    fire_companies.map FireCompany.company_name
  ∧ List.Pairwise (fun a b => ∀ c, c ∈ a.2 → c ∉ b.2)
      (map_companies_to_alarm_boxes fire_companies alarm_boxes)
  ∧ (∀ entry ∈ map_companies_to_alarm_boxes fire_companies alarm_boxes,
      ∀ c ∈ entry.2, c ∈ alarm_boxes.map AlarmBox.alarm_box_code)
  ∧ (∀ b ∈ alarm_boxes,
      (∀ fc ∈ fire_companies, fc.the_geom (b.longitude, b.latitude) = false) →
      ∀ entry ∈ map_companies_to_alarm_boxes fire_companies alarm_boxes,
        b.alarm_box_code ∉ entry.2)
  ∧ List.Forall₂ (fun (entry : String × List String) (fc : FireCompany) =>
      entry.1 = fc.company_name ∧
        ((∀ b ∈ alarm_boxes, fc.the_geom (b.longitude, b.latitude) = false) → entry.2 = []))
      (map_companies_to_alarm_boxes fire_companies alarm_boxes) fire_companies

/-- Statement of the aggregator frame-effect claim: the call leaves the input
`fire_companies` dataframe unchanged, and returns a copy whose rows are the
input rows with the `the_geom` column dropped and the `response_times` and
`incident_count` columns appended; no output cell belongs to a `the_geom`
column. -/
def AggregatorFrameSpec (fire_companies : DFrame) (abr : List BoxResponse)
    (ctb : List (String × List String)) : Prop :=
  (calc_companies_response_time_df fire_companies abr ctb).1 = fire_companies
  ∧ (calc_companies_response_time_df fire_companies abr ctb).2 =
      (fire_companies.zip ctb).map (fun rc =>
        (rc.1.filter (fun cell => cell.1 ≠ "the_geom"))
          ++ [("response_times", Value.rat (companyResponseTime abr rc.2.2)),
              ("incident_count", Value.nat (companyIncidentCount abr rc.2.2))])
  ∧ ∀ row ∈ (calc_companies_response_time_df fire_companies abr ctb).2,
      ∀ cell ∈ row, cell.1 ≠ "the_geom"

/-- Statement of the concatenation frame-effect claim: after the call, every
dataframe of the caller's dict has had the scalar `date` column assigned in
place (so a dataframe that lacked a `date` column is really changed), and the
return value is the concatenation of the mutated dataframes in key-iteration
order. -/
def ConcatSpec (m : List (Int × DFrame)) (d : Int) (df : DFrame) (row : Row) : Prop :=
  (concat_company_responses m).1 =
    m.map (fun p => (p.1, setColumnConst p.2 "date" (Value.int p.1)))
  ∧ (∀ p ∈ (concat_company_responses m).1, ∀ r ∈ p.2, getCell r "date" = some (Value.int p.1))
  ∧ (concat_company_responses m).2 =
      (m.map (fun p => setColumnConst p.2 "date" (Value.int p.1))).flatten
  ∧ (d, setColumnConst df "date" (Value.int d)) ∈ (concat_company_responses m).1
  ∧ setColumnConst df "date" (Value.int d) ≠ df

/-! ## Characterisation of the accumulation loop -/

theorem runTally_fst (codes : List String) (incs : List Incident) :
    ∀ (count total : String → Nat) (c : String),
    (runTally codes count total incs).1 c =
      count c + incs.countP
        (fun i => decide (i.alarm_box_code = c) && decide (i.alarm_box_code ∈ codes)) := by
  induction incs with
  | nil => intro count total c; simp [runTally]
  | cons i rest ih =>
    intro count total c
    by_cases hmem : i.alarm_box_code ∈ codes
    · rw [runTally, if_pos hmem, ih]
      by_cases hc : c = i.alarm_box_code
      · simp [List.countP_cons, hc, hmem]
        omega
      · have hc2 : i.alarm_box_code ≠ c := fun h => hc h.symm
        simp [List.countP_cons, hc2, hc]
    · rw [runTally, if_neg hmem, ih]
      simp [List.countP_cons, hmem]

theorem runTally_snd (codes : List String) (incs : List Incident) :
    ∀ (count total : String → Nat) (c : String),
    (runTally codes count total incs).2 c =
      total c + ((incs.filter
          (fun i => decide (i.alarm_box_code = c) && decide (i.alarm_box_code ∈ codes))).map
        (fun i => i.incident_response_seconds_qy)).sum := by
  induction incs with
  | nil => intro count total c; simp [runTally]
  | cons i rest ih =>
    intro count total c
    by_cases hmem : i.alarm_box_code ∈ codes
    · rw [runTally, if_pos hmem, ih]
      by_cases hc : c = i.alarm_box_code
      · simp [List.filter_cons, hc, hmem]
        omega
      · have hc2 : i.alarm_box_code ≠ c := fun h => hc h.symm
        simp [List.filter_cons, hc2, hc]
    · rw [runTally, if_neg hmem, ih]
      simp [List.filter_cons, hmem]

theorem tally_pred_eq (codes : List String) (c : String) (h : c ∈ codes) :
    (fun i : Incident => decide (i.alarm_box_code = c) && decide (i.alarm_box_code ∈ codes)) =
      fun i : Incident => decide (i.alarm_box_code = c) := by
  funext i
  by_cases hc : i.alarm_box_code = c
  · simp [hc, h]
  · simp [hc]

/-- Closed form of `get_response_time_per_alarm_box`: one output row per
alarm-box row, whose count is the number of windowed incidents carrying that
box's code and whose sum is the total response seconds of those incidents. -/
theorem get_response_time_per_alarm_box_spec (incidents : List Incident)
    (alarm_boxes : List AlarmBox) (start stop : Int) :
    get_response_time_per_alarm_box incidents alarm_boxes start stop =
      alarm_boxes.map (fun b =>
        { alarm_box_code := b.alarm_box_code
          alarm_box_location := b.alarm_box_location
          latitude := b.latitude
          longitude := b.longitude
          incident_count := (incidents_in_range incidents start stop).countP
            (fun i => decide (i.alarm_box_code = b.alarm_box_code))
          response_time_sum := (((incidents_in_range incidents start stop).filter
              (fun i => decide (i.alarm_box_code = b.alarm_box_code))).map
            (fun i => i.incident_response_seconds_qy)).sum }) := by
  unfold get_response_time_per_alarm_box
  refine List.map_congr_left ?_
  intro b hb
  have hcode : b.alarm_box_code ∈ alarm_boxes.map (fun b => b.alarm_box_code) :=
    List.mem_map_of_mem _ hb
  rw [runTally_fst, runTally_snd, tally_pred_eq _ _ hcode]
  simp

theorem incidents_in_range_append (l₁ l₂ : List Incident) (start stop : Int) :
    incidents_in_range (l₁ ++ l₂) start stop =
      incidents_in_range l₁ start stop ++ incidents_in_range l₂ start stop := by
  simp [incidents_in_range, List.filter_append]

theorem mem_of_mem_incidents_in_range {i : Incident} {l : List Incident} {start stop : Int}
    (h : i ∈ incidents_in_range l start stop) : i ∈ l :=
  List.mem_of_mem_filter (List.mem_of_mem_filter h)

/-- C3: the temporal window selects exactly the incidents with
`start ≤ incident_datetime < end` (start inclusive, end exclusive; an
incident at `t = start` is included, one at `t = end` is excluded), and the
selected set is the same regardless of the ordering of the input. -/
theorem temporal_window_half_open_order_independent (incidents incidents' : List Incident)
    (start stop : Int) (i : Incident) (hperm : incidents.Perm incidents') :
    WindowSpec incidents incidents' start stop i := by
  refine ⟨?_, ?_, ?_, (hperm.filter _).filter _⟩
  · simp only [incidents_in_range, List.mem_filter, decide_eq_true_eq]
    tauto
  · intro j hj hstart hlt
    simp only [incidents_in_range, List.mem_filter, decide_eq_true_eq]
    exact ⟨⟨hj, le_of_eq hstart.symm⟩, hstart ▸ hlt⟩
  · intro j hj hmem
    simp only [incidents_in_range, List.mem_filter, decide_eq_true_eq] at hmem
    omega

theorem temporal_window_half_open_order_independent_witness :
    ([⟨"A", 0, 10⟩, ⟨"B", 5, 20⟩] : List Incident).Perm [⟨"B", 5, 20⟩, ⟨"A", 0, 10⟩]
    ∧ WindowSpec [⟨"A", 0, 10⟩, ⟨"B", 5, 20⟩] [⟨"B", 5, 20⟩, ⟨"A", 0, 10⟩] 0 5 ⟨"A", 0, 10⟩ :=
  ⟨by decide,
   temporal_window_half_open_order_independent _ _ 0 5 _ (by decide)⟩

/-- C4: the per-asset accumulator outputs one entry for every known alarm box
code, with count `0` and sum `0` when the box has no incidents in the window;
each windowed incident with a known code contributes exactly `+1` to that
code's count and its response seconds to that code's sum; an incident with an
unknown code is silently ignored (the output is the same with or without it)
and causes no error. -/
theorem per_asset_accumulator_totals (incidents : List Incident) (alarm_boxes : List AlarmBox)
    (start stop : Int) (pre post : List Incident) (j : Incident)
    (hj : j.alarm_box_code ∉ alarm_boxes.map (fun b => b.alarm_box_code)) :
    AccumulatorSpec incidents alarm_boxes start stop pre post j := by
  refine ⟨get_response_time_per_alarm_box_spec _ _ _ _, ?_, ?_⟩
  · intro b hb hnone
    rw [get_response_time_per_alarm_box_spec]
    refine List.mem_map.mpr ⟨b, hb, ?_⟩
    have hcount : (incidents_in_range incidents start stop).countP
        (fun i => decide (i.alarm_box_code = b.alarm_box_code)) = 0 := by
      refine List.countP_eq_zero.mpr ?_
      intro k hk
      simpa using hnone k hk
    have hfilter : (incidents_in_range incidents start stop).filter
        (fun i => decide (i.alarm_box_code = b.alarm_box_code)) = [] := by
      refine List.filter_eq_nil_iff.mpr ?_
      intro k hk
      simpa using hnone k hk
    simp [hcount, hfilter]
  · rw [get_response_time_per_alarm_box_spec, get_response_time_per_alarm_box_spec]
    refine List.map_congr_left ?_
    intro b hb
    have hbc : ∀ k ∈ incidents_in_range [j] start stop,
        ¬(decide (k.alarm_box_code = b.alarm_box_code) = true) := by
      intro k hk
      have hkj : k = j := by
        have := mem_of_mem_incidents_in_range hk
        simpa using this
      subst hkj
      simp only [decide_eq_true_eq]
      intro h
      exact hj (h ▸ List.mem_map_of_mem _ hb)
    have happ : pre ++ j :: post = pre ++ [j] ++ post := by simp
    rw [happ, incidents_in_range_append, incidents_in_range_append,
      incidents_in_range_append]
    have hcount : (incidents_in_range [j] start stop).countP
        (fun i => decide (i.alarm_box_code = b.alarm_box_code)) = 0 :=
      List.countP_eq_zero.mpr hbc
    have hfilter : (incidents_in_range [j] start stop).filter
        (fun i => decide (i.alarm_box_code = b.alarm_box_code)) = [] :=
      List.filter_eq_nil_iff.mpr hbc
    simp [List.countP_append, List.filter_append, hcount, hfilter]

theorem per_asset_accumulator_totals_witness :
    (("ZZ" : String) ∉ ([⟨"B1", "loc", 0, 0⟩] : List AlarmBox).map (fun b => b.alarm_box_code))
    ∧ AccumulatorSpec [⟨"B1", 1, 30⟩, ⟨"QQ", 2, 40⟩] [⟨"B1", "loc", 0, 0⟩] 0 10
        [⟨"B1", 1, 30⟩] [] ⟨"ZZ", 3, 7⟩ :=
  ⟨by decide,
   per_asset_accumulator_totals _ _ 0 10 _ _ _ (by decide)⟩

/-- C1: the aggregator computes each company's `response_times` as the
incident-weighted average — the sum of the `response_time_sum` values of the
company's boxes divided by the sum of their `incident_count` values when that
count is positive — not the average of per-box averages (the example boxes
`(count 2, sum 100)` and `(count 1, sum 50)` yield `50`, not `75`). -/
theorem aggregator_incident_weighted_average (fire_companies : List FireCompany)
    (abr : List BoxResponse) (ctb : List (String × List String)) (boxes : List String)
    (h : 0 < companyIncidentCount abr boxes) :
    AggregationWeightingSpec fire_companies abr ctb boxes := by
  have hs : companyResponseSum exampleBoxes ["A", "B"] = 150 := by decide
  have hc : companyIncidentCount exampleBoxes ["A", "B"] = 3 := by decide
  have hex : companyResponseTime exampleBoxes ["A", "B"] = 50 := by
    unfold companyResponseTime
    rw [hs, hc]
    norm_num
  refine ⟨?_, rfl, hex, by rw [hex]; norm_num⟩
  unfold companyResponseTime
  by_cases hs : 0 < companyResponseSum abr boxes
  · rw [if_pos hs]
  · rw [if_neg hs]
    have h0 : companyResponseSum abr boxes = 0 := by omega
    rw [h0]
    simp

theorem aggregator_incident_weighted_average_witness :
    0 < companyIncidentCount exampleBoxes ["A", "B"]
    ∧ AggregationWeightingSpec [] exampleBoxes [] ["A", "B"] :=
  ⟨by decide, aggregator_incident_weighted_average [] exampleBoxes [] ["A", "B"] (by decide)⟩

theorem get_rt_row_sum_eq_zero {incidents : List Incident} {alarm_boxes : List AlarmBox}
    {start stop : Int} {r : BoxResponse}
    (hr : r ∈ get_response_time_per_alarm_box incidents alarm_boxes start stop)
    (hc : r.incident_count = 0) : r.response_time_sum = 0 := by
  rw [get_response_time_per_alarm_box_spec] at hr
  obtain ⟨b, hb, rfl⟩ := List.mem_map.mp hr
  simp only at hc ⊢
  have hfil : (incidents_in_range incidents start stop).filter
      (fun i => decide (i.alarm_box_code = b.alarm_box_code)) = [] := by
    refine List.filter_eq_nil_iff.mpr ?_
    exact List.countP_eq_zero.mp hc
  rw [hfil]
  simp

/-- C5: a company whose boxes have a total `incident_count` of zero in the
window is reported with `response_times = 0` exactly; the division is
guarded, so no divide-by-zero fault can occur. -/
theorem zero_incident_company_reports_zero (incidents : List Incident)
    (alarm_boxes : List AlarmBox) (start stop : Int) (boxes : List String)
    (h : companyIncidentCount
      (get_response_time_per_alarm_box incidents alarm_boxes start stop) boxes = 0) :
    companyResponseTime
      (get_response_time_per_alarm_box incidents alarm_boxes start stop) boxes = 0 := by
  have hsum : companyResponseSum
      (get_response_time_per_alarm_box incidents alarm_boxes start stop) boxes = 0 := by
    unfold companyResponseSum
    refine List.sum_eq_zero ?_
    intro x hx
    obtain ⟨r, hrseg, rfl⟩ := List.mem_map.mp hx
    have hrmem : r ∈ get_response_time_per_alarm_box incidents alarm_boxes start stop :=
      List.mem_of_mem_filter hrseg
    have hrc : r.incident_count = 0 := by
      unfold companyIncidentCount at h
      exact List.sum_eq_zero_iff.mp h _ (List.mem_map_of_mem _ hrseg)
    exact get_rt_row_sum_eq_zero hrmem hrc
  unfold companyResponseTime
  rw [hsum]
  simp

theorem zero_incident_company_reports_zero_witness :
    companyIncidentCount
      (get_response_time_per_alarm_box [] [⟨"B1", "loc", 0, 0⟩] 0 10) ["B1"] = 0
    ∧ companyResponseTime
        (get_response_time_per_alarm_box [] [⟨"B1", "loc", 0, 0⟩] 0 10) ["B1"] = 0 :=
  ⟨by decide, zero_incident_company_reports_zero [] [⟨"B1", "loc", 0, 0⟩] 0 10 ["B1"] (by decide)⟩

/-- C7 counterexample: with equal bounds (`start = end = 5`) the per-period
computation does not reject; it proceeds and returns the normal all-zero
table, so "rejected before any processing" is false of the code (the
`start < end` docstring precondition is never checked). -/
theorem inverted_bounds_not_rejected (incidents : List Incident) (alarm_boxes : List AlarmBox)
    (start stop : Int) (h : stop ≤ start) :
    EmptyWindowSpec incidents alarm_boxes start stop := by
  have hwin : incidents_in_range incidents start stop = [] := by
    refine List.filter_eq_nil_iff.mpr ?_
    intro i hi
    have h1 := (List.mem_filter.mp hi).2
    simp only [decide_eq_true_eq] at h1 ⊢
    omega
  refine ⟨hwin, ?_⟩
  rw [get_response_time_per_alarm_box_spec, hwin]
  simp

theorem inverted_bounds_not_rejected_counterexample :
    get_response_time_per_alarm_box [⟨"B1", 5, 100⟩] [⟨"B1", "loc", 0, 0⟩] 5 5 =
      [⟨"B1", "loc", 0, 0, 0, 0⟩] := by
  decide

theorem inverted_bounds_not_rejected_witness :
    (5 : Int) ≤ 5
    ∧ EmptyWindowSpec [⟨"B1", 5, 100⟩] [⟨"B1", "loc", 0, 0⟩] 5 5 :=
  ⟨by decide, inverted_bounds_not_rejected [⟨"B1", 5, 100⟩] [⟨"B1", "loc", 0, 0⟩] 5 5 (by decide)⟩

/-! ## The spatial partitioner -/

theorem mapCompaniesAux_keys (comps : List FireCompany) :
    ∀ pool, (mapCompaniesAux comps pool).map Prod.fst = comps.map FireCompany.company_name := by
  induction comps with
  | nil => intro pool; simp [mapCompaniesAux]
  | cons fc rest ih => intro pool; simp [mapCompaniesAux, ih]

theorem mem_find_alarm_boxes {pool : List (String × Point)} {g : Geom} {c : String}
    (h : c ∈ find_alarm_boxes_in_boundary pool g) :
    ∃ p, (c, p) ∈ pool ∧ g p = true := by
  unfold find_alarm_boxes_in_boundary at h
  obtain ⟨kv, hkv, rfl⟩ := List.mem_map.mp h
  have hkv2 := List.mem_filter.mp hkv
  exact ⟨kv.2, by simpa using hkv2.1, hkv2.2⟩

theorem mem_of_mem_mapCompaniesAux (comps : List FireCompany) :
    ∀ pool entry, entry ∈ mapCompaniesAux comps pool →
      ∀ c ∈ entry.2, c ∈ pool.map Prod.fst := by
  induction comps with
  | nil => simp [mapCompaniesAux]
  | cons fc rest ih =>
    intro pool entry hentry c hc
    rw [mapCompaniesAux] at hentry
    rcases List.mem_cons.mp hentry with h | h
    · subst h
      obtain ⟨p, hp, _⟩ := mem_find_alarm_boxes hc
      exact List.mem_map.mpr ⟨(c, p), hp, rfl⟩
    · have hmem := ih _ _ h c hc
      obtain ⟨kv, hkv, rfl⟩ := List.mem_map.mp hmem
      exact List.mem_map.mpr ⟨kv, List.mem_of_mem_filter hkv, rfl⟩

theorem mapCompaniesAux_pairwise (comps : List FireCompany) :
    ∀ pool, List.Pairwise (fun a b => ∀ c, c ∈ a.2 → c ∉ b.2) (mapCompaniesAux comps pool) := by
  induction comps with
  | nil => intro pool; simp [mapCompaniesAux]
  | cons fc rest ih =>
    intro pool
    rw [mapCompaniesAux]
    refine List.pairwise_cons.mpr ⟨?_, ih _⟩
    intro entry hentry c hcfound hcentry
    have hc2 := mem_of_mem_mapCompaniesAux _ _ _ hentry c hcentry
    obtain ⟨kv, hkv, rfl⟩ := List.mem_map.mp hc2
    have hflt := List.mem_filter.mp hkv
    have hnot := hflt.2
    simp only [decide_eq_true_eq] at hnot
    exact hnot hcfound

theorem mapCompaniesAux_forall₂ (comps : List FireCompany) :
    ∀ pool, List.Forall₂ (fun (entry : String × List String) (fc : FireCompany) =>
      entry.1 = fc.company_name ∧
        ∀ c ∈ entry.2, ∃ p, (c, p) ∈ pool ∧ fc.the_geom p = true)
      (mapCompaniesAux comps pool) comps := by
  induction comps with
  | nil => intro pool; simp [mapCompaniesAux]
  | cons fc rest ih =>
    intro pool
    rw [mapCompaniesAux]
    refine List.Forall₂.cons ⟨rfl, ?_⟩ ?_
    · intro c hc
      exact mem_find_alarm_boxes hc
    · refine (ih _).imp ?_
      intro entry fc' h
      refine ⟨h.1, ?_⟩
      intro c hc
      obtain ⟨p, hp, hg⟩ := h.2 c hc
      exact ⟨p, List.mem_of_mem_filter hp, hg⟩

theorem forall₂_exists_of_mem_left {α β : Type} {R : α → β → Prop}
    {l₁ : List α} {l₂ : List β} (h : List.Forall₂ R l₁ l₂) :
    ∀ {a}, a ∈ l₁ → ∃ b ∈ l₂, R a b := by
  induction h with
  | nil => intro a ha; simp at ha
  | cons hR hrest ih =>
    intro a ha
    rcases List.mem_cons.mp ha with rfl | ha'
    · exact ⟨_, List.mem_cons_self _ _, hR⟩
    · obtain ⟨b, hb, hRb⟩ := ih ha'
      exact ⟨b, List.mem_cons_of_mem _ hb, hRb⟩

/-- C2: the spatial partition assigns each alarm box code to at most one
company's list (first company in input order wins, an assigned box being
removed from the pool); every company name appears as a key, with an empty
list when no boxes match; and a box contained in no company's boundary
appears in no list. -/
theorem spatial_partition_invariants (fire_companies : List FireCompany)
    (alarm_boxes : List AlarmBox)
    (hnames : (fire_companies.map FireCompany.company_name).Nodup)
    (hcodes : (alarm_boxes.map AlarmBox.alarm_box_code).Nodup) :
    PartitionSpec fire_companies alarm_boxes := by
  refine ⟨mapCompaniesAux_keys _ _, mapCompaniesAux_pairwise _ _, ?_, ?_, ?_⟩
  · intro entry hentry c hc
    have hmem := mem_of_mem_mapCompaniesAux _ _ _ hentry c hc
    simpa [alarm_box_locations, List.map_map, Function.comp] using hmem
  · intro b hb hnone entry hentry hcmem
    obtain ⟨fc, hfc, hR⟩ :=
      forall₂_exists_of_mem_left (mapCompaniesAux_forall₂ _ _) hentry
    obtain ⟨p, hp, hg⟩ := hR.2 _ hcmem
    obtain ⟨b', hb', hpair⟩ := List.mem_map.mp hp
    have hcode_eq : b'.alarm_box_code = b.alarm_box_code := congrArg Prod.fst hpair
    have hbeq : b' = b := List.inj_on_of_nodup_map hcodes hb' hb hcode_eq
    subst hbeq
    have hp2 : p = (b'.longitude, b'.latitude) := (congrArg Prod.snd hpair).symm
    rw [hp2, hnone fc hfc] at hg
    exact Bool.false_ne_true hg
  · refine (mapCompaniesAux_forall₂ _ _).imp ?_
    intro entry fc h
    refine ⟨h.1, ?_⟩
    intro hnone
    refine List.eq_nil_iff_forall_not_mem.mpr ?_
    intro c hc
    obtain ⟨p, hp, hg⟩ := h.2 c hc
    obtain ⟨b, hb, hpair⟩ := List.mem_map.mp hp
    have hp2 : p = (b.longitude, b.latitude) := (congrArg Prod.snd hpair).symm
    rw [hp2, hnone b hb] at hg
    exact Bool.false_ne_true hg

theorem spatial_partition_invariants_witness :
    (([⟨"E1", fun p => decide (p.1 < 2)⟩, ⟨"E2", fun p => decide (p.1 < 10)⟩] :
        List FireCompany).map FireCompany.company_name).Nodup
    ∧ (([⟨"B1", "x", 0, 1⟩, ⟨"B2", "y", 0, 5⟩, ⟨"B3", "z", 0, 50⟩] :
        List AlarmBox).map AlarmBox.alarm_box_code).Nodup
    ∧ PartitionSpec [⟨"E1", fun p => decide (p.1 < 2)⟩, ⟨"E2", fun p => decide (p.1 < 10)⟩]
        [⟨"B1", "x", 0, 1⟩, ⟨"B2", "y", 0, 5⟩, ⟨"B3", "z", 0, 50⟩] :=
  ⟨by decide, by decide,
   spatial_partition_invariants _ _ (by decide) (by decide)⟩

/-! ## Cell-level lemmas for the generic dataframe embedding -/

theorem setCell_of_forall_ne {row : Row} {col : String} (h : ∀ cell ∈ row, cell.1 ≠ col)
    (v : Value) : setCell row col v = row ++ [(col, v)] := by
  have hany : row.any (fun cell => decide (cell.1 = col)) = false := by
    rw [List.any_eq_false]
    intro cell hcell
    simp [h cell hcell]
  simp [setCell, hany]

theorem setCell_ne_of_forall_ne {row : Row} {col : String} (h : ∀ cell ∈ row, cell.1 ≠ col)
    (v : Value) : setCell row col v ≠ row := by
  rw [setCell_of_forall_ne h v]
  intro heq
  have hlen := congrArg List.length heq
  simp at hlen

theorem getCell_map_replace (col : String) (v : Value) :
    ∀ row : Row, row.any (fun cell => decide (cell.1 = col)) = true →
      getCell (row.map (fun cell => if cell.1 = col then (col, v) else cell)) col = some v := by
  intro row
  induction row with
  | nil => intro h; simp at h
  | cons cell rest ih =>
    intro h
    by_cases hc : cell.1 = col
    · simp [getCell, hc]
    · have h' : rest.any (fun cell => decide (cell.1 = col)) = true := by
        simpa [hc] using h
      simpa [getCell, hc] using ih h'

theorem getCell_append_single (col : String) (v : Value) :
    ∀ row : Row, (∀ cell ∈ row, cell.1 ≠ col) →
      getCell (row ++ [(col, v)]) col = some v := by
  intro row
  induction row with
  | nil => intro h; simp [getCell]
  | cons cell rest ih =>
    intro h
    have hc : cell.1 ≠ col := h cell (by simp)
    simpa [getCell, hc] using ih (fun c hc2 => h c (by simp [hc2]))

theorem getCell_setCell (row : Row) (col : String) (v : Value) :
    getCell (setCell row col v) col = some v := by
  by_cases hany : row.any (fun cell => decide (cell.1 = col)) = true
  · rw [setCell, if_pos hany]
    exact getCell_map_replace col v row hany
  · rw [setCell, if_neg hany]
    refine getCell_append_single col v row ?_
    intro cell hcell hc
    exact hany (List.any_eq_true.mpr ⟨cell, hcell, by simp [hc]⟩)

theorem eq_of_map_eq_self {α : Type} {f : α → α} :
    ∀ {l : List α}, l.map f = l → ∀ x ∈ l, f x = x := by
  intro l
  induction l with
  | nil => simp
  | cons a t ih =>
    intro h x hx
    injection h with h1 h2
    rcases List.mem_cons.mp hx with rfl | hx'
    · exact h1
    · exact ih h2 x hx'

/-! ## The aggregator's dataframe effects -/

theorem calc_df_closed_form (abr : List BoxResponse) :
    ∀ (fc : DFrame) (ctb : List (String × List String)),
      fc.length = ctb.length →
      (∀ row ∈ fc, ∀ cell ∈ row, cell.1 ≠ "response_times" ∧ cell.1 ≠ "incident_count") →
      (calc_companies_response_time_df fc abr ctb).2 =
        (fc.zip ctb).map (fun rc =>
          (rc.1.filter (fun cell => cell.1 ≠ "the_geom"))
            ++ [("response_times", Value.rat (companyResponseTime abr rc.2.2)),
                ("incident_count", Value.nat (companyIncidentCount abr rc.2.2))]) := by
  intro fc
  induction fc with
  | nil => intro ctb hlen hfresh; rfl
  | cons row rest ih =>
    intro ctb hlen hfresh
    cases ctb with
    | nil => simp at hlen
    | cons p ps =>
      have hrow := hfresh row (by simp)
      have hhead : setCell (setCell (row.filter (fun cell => decide (cell.1 ≠ "the_geom")))
          "response_times" (Value.rat (companyResponseTime abr p.2)))
          "incident_count" (Value.nat (companyIncidentCount abr p.2)) =
          (row.filter (fun cell => decide (cell.1 ≠ "the_geom")))
            ++ [("response_times", Value.rat (companyResponseTime abr p.2)),
                ("incident_count", Value.nat (companyIncidentCount abr p.2))] := by
        have h1 : ∀ cell ∈ row.filter (fun cell => decide (cell.1 ≠ "the_geom")),
            cell.1 ≠ "response_times" :=
          fun cell hc => (hrow cell (List.mem_of_mem_filter hc)).1
        rw [setCell_of_forall_ne h1]
        have h2 : ∀ cell ∈ (row.filter (fun cell => decide (cell.1 ≠ "the_geom")))
            ++ [(("response_times" : String),
                Value.rat (companyResponseTime abr p.2))], cell.1 ≠ "incident_count" := by
          intro cell hc
          rcases List.mem_append.mp hc with h | h
          · exact (hrow cell (List.mem_of_mem_filter h)).2
          · simp at h
            rw [h]
            simp
        rw [setCell_of_forall_ne h2]
        simp
      have htail := ih ps (by simpa using hlen)
        (fun r hr => hfresh r (List.mem_cons_of_mem _ hr))
      simp only [calc_companies_response_time_df, dropColumn, setColumn, List.map_cons,
        List.zip_cons_cons] at htail ⊢
      exact congrArg₂ List.cons hhead htail

/-- C9: the aggregator's output contains no boundary-geometry column: the call
returns a copy of the fire-company table with the `the_geom` column dropped
and the `response_times` and `incident_count` columns added, and leaves the
input `fire_companies` dataframe unchanged. -/
theorem aggregator_output_drops_geometry (fire_companies : DFrame) (abr : List BoxResponse)
    (ctb : List (String × List String)) (hlen : fire_companies.length = ctb.length)
    (hfresh : ∀ row ∈ fire_companies, ∀ cell ∈ row,
      cell.1 ≠ "response_times" ∧ cell.1 ≠ "incident_count") :
    AggregatorFrameSpec fire_companies abr ctb := by
  refine ⟨rfl, calc_df_closed_form abr fire_companies ctb hlen hfresh, ?_⟩
  intro row hrow cell hcell
  rw [calc_df_closed_form abr fire_companies ctb hlen hfresh] at hrow
  obtain ⟨rc, hrc, rfl⟩ := List.mem_map.mp hrow
  rcases List.mem_append.mp hcell with h | h
  · have hflt := List.mem_filter.mp h
    simpa using hflt.2
  · simp at h
    rcases h with h | h <;> rw [h] <;> simp

theorem aggregator_output_drops_geometry_witness :
    (([[("company_name", Value.str "E1"), ("the_geom", Value.geo [])]] : DFrame).length =
      ([("E1", ["B1"])] : List (String × List String)).length)
    ∧ (∀ row ∈ ([[("company_name", Value.str "E1"), ("the_geom", Value.geo [])]] : DFrame),
        ∀ cell ∈ row, cell.1 ≠ "response_times" ∧ cell.1 ≠ "incident_count")
    ∧ AggregatorFrameSpec [[("company_name", Value.str "E1"), ("the_geom", Value.geo [])]]
        [] [("E1", ["B1"])] :=
  ⟨by decide, by decide,
   aggregator_output_drops_geometry _ [] _ (by decide) (by decide)⟩

/-- C10: `concat_company_responses` mutates its input: it assigns a `date`
column in place to each original per-period dataframe (so the caller's
dataframes are changed after the call), and additionally returns the
concatenated long-form table in key-iteration order. -/
theorem concat_mutates_and_concatenates (m : List (Int × DFrame)) (d : Int) (df : DFrame)
    (row : Row) (hmem : (d, df) ∈ m) (hrow : row ∈ df)
    (hfree : ∀ cell ∈ row, cell.1 ≠ "date") :
    ConcatSpec m d df row := by
  refine ⟨rfl, ?_, ?_, ?_, ?_⟩
  · intro p hp r hr
    obtain ⟨q, hq, rfl⟩ := List.mem_map.mp hp
    obtain ⟨r0, hr0, rfl⟩ := List.mem_map.mp hr
    exact getCell_setCell r0 "date" (Value.int q.1)
  · simp only [concat_company_responses, List.map_map]
    rfl
  · exact List.mem_map.mpr ⟨(d, df), hmem, rfl⟩
  · intro heq
    have hfix := eq_of_map_eq_self heq row hrow
    exact setCell_ne_of_forall_ne hfree (Value.int d) hfix

theorem concat_mutates_and_concatenates_witness :
    ((7, [[("company_name", Value.str "E1")]]) ∈
      ([(7, [[("company_name", Value.str "E1")]])] : List (Int × DFrame)))
    ∧ ([("company_name", Value.str "E1")] ∈ ([[("company_name", Value.str "E1")]] : DFrame))
    ∧ (∀ cell ∈ ([("company_name", Value.str "E1")] : Row), cell.1 ≠ "date")
    ∧ ConcatSpec [(7, [[("company_name", Value.str "E1")]])] 7
        [[("company_name", Value.str "E1")]] [("company_name", Value.str "E1")] :=
  ⟨by decide, by decide, by decide,
   concat_mutates_and_concatenates _ 7 _ _ (by decide) (by decide) (by decide)⟩

/-! ## The outlier post-filter -/

theorem remove_outliers_eq_filter (g : DFrame) :
    remove_outliers_companies_response g =
      g.filter (fun row => !respBelowLower row && !respAboveUpper row) := by
  unfold remove_outliers_companies_response
  rw [List.filter_filter]
  exact List.filter_congr (fun a _ => Bool.and_comm _ _)

/-- C8: the outlier post-filter removes exactly the records whose
`response_times` is below `1` or above `2500` (a record at `3000` is dropped,
one at `2000` is kept), and in the main pipeline it is applied once to the
full concatenated multi-period table, not per period. -/
theorem outlier_filter_bounds_and_placement (f : DFrame) (m : List (Int × DFrame)) :
    (remove_outliers_companies_response f =
      f.filter (fun row => !respBelowLower row && !respAboveUpper row))
    ∧ (∀ row : Row, row ∈ remove_outliers_companies_response f ↔
        row ∈ f ∧ respBelowLower row = false ∧ respAboveUpper row = false)
    ∧ remove_outliers_companies_response [rowWithResponse 3000] = []
    ∧ remove_outliers_companies_response [rowWithResponse 2000] = [rowWithResponse 2000]
    ∧ main_outlier_stage m =
        ((m.map (fun p => setColumnConst p.2 "date" (Value.int p.1))).flatten).filter
          (fun row => !respBelowLower row && !respAboveUpper row) := by
  refine ⟨remove_outliers_eq_filter f, ?_, by decide, by decide, ?_⟩
  · intro row
    rw [remove_outliers_eq_filter]
    simp [List.mem_filter]
  · unfold main_outlier_stage
    rw [remove_outliers_eq_filter]
    congr 1
    simp only [concat_company_responses, List.map_map]
    rfl

/-- C6 counterexample: a jurisdiction record with `response_times = 0` (a
zero-incident jurisdiction) IS removed by the outlier filter — `0 < 1`
triggers the lower bound — contrary to the claim that it is kept. -/
theorem zero_response_record_dropped_counterexample :
    rowWithResponse 0 ∈ ([rowWithResponse 0] : DFrame)
    ∧ remove_outliers_companies_response [rowWithResponse 0] = [] := by
  exact ⟨by decide, by decide⟩

/-- C6 amended: every record with `response_times = 0` is removed by the
lower bound of `remove_outliers_companies_response` (the function has no
incident-count threshold that could retain it). -/
theorem zero_response_record_dropped (f : DFrame) (row : Row) (hmem : row ∈ f)
    (hzero : getCell row "response_times" = some (Value.rat 0)) :
    row ∉ remove_outliers_companies_response f := by
  intro hin
  have h1 := (List.mem_filter.mp hin).1
  have h2 := (List.mem_filter.mp h1).2
  simp [respBelowLower, hzero] at h2

theorem zero_response_record_dropped_witness :
    rowWithResponse 0 ∈ ([rowWithResponse 0] : DFrame)
    ∧ getCell (rowWithResponse 0) "response_times" = some (Value.rat 0)
    ∧ rowWithResponse 0 ∉ remove_outliers_companies_response [rowWithResponse 0] :=
  ⟨by decide, by decide, zero_response_record_dropped _ _ (by decide) (by decide)⟩

end FDNY
